import Mathlib

/-!
Verification development for the `simple_nerf_rust` dataset module
(`src/dataset/mod.rs`).

The module loads a posed-image dataset and converts it into per-pixel ray
samples. We shallowly embed the tensor pipeline: a rank-`k` tensor is a
record of explicit dimension sizes together with a total index function
into `ℚ` (32-bit floats are modelled as exact rationals; the claims under
study are formula-level, not rounding-level). Broadcasting follows the
numpy/burn rule: two sizes are compatible when equal or one of them is 1,
and a size-1 axis is read through index `i % 1 = 0`.

The zip/npy container decoding, file opening and URL retrieval are
external collaborators; the embedding starts from the decoded `focal`,
`images` and `poses` arrays, exactly where `init_from_reader` starts its
own arithmetic after decoding.
-/

namespace SimpleNerf

/-- Rank-3 tensor: dimension sizes plus a total index function
(models burn `Data<f32, 3>` / `Tensor<B, 3>`). -/
structure Data3 where
  d0 : ℕ
  d1 : ℕ
  d2 : ℕ
  val : ℕ → ℕ → ℕ → ℚ

/-- Rank-4 tensor (models burn `Data<f32, 4>` / `Tensor<B, 4>`). -/
structure Data4 where
  d0 : ℕ
  d1 : ℕ
  d2 : ℕ
  d3 : ℕ
  val : ℕ → ℕ → ℕ → ℕ → ℚ

/-- Rank-5 tensor (intermediate shapes of `init_from_reader`). -/
structure Data5 where
  d0 : ℕ
  d1 : ℕ
  d2 : ℕ
  d3 : ℕ
  d4 : ℕ
  val : ℕ → ℕ → ℕ → ℕ → ℕ → ℚ

/-- Broadcast of one axis pair: a size-1 axis stretches to the other size. -/
def bdim (a b : ℕ) : ℕ := if a = 1 then b else a

/-- Elementwise product with broadcasting on rank-5 tensors
(burn `*` on tensors). A size-1 axis is read through `i % 1 = 0`. -/
def Data5.mulB (x y : Data5) : Data5 :=
  ⟨bdim x.d0 y.d0, bdim x.d1 y.d1, bdim x.d2 y.d2, bdim x.d3 y.d3, bdim x.d4 y.d4,
    fun i0 i1 i2 i3 i4 =>
      x.val (i0 % x.d0) (i1 % x.d1) (i2 % x.d2) (i3 % x.d3) (i4 % x.d4) *
        y.val (i0 % y.d0) (i1 % y.d1) (i2 % y.d2) (i3 % y.d3) (i4 % y.d4)⟩

/-- burn `sum_dim(4)`: sum over the last axis, keeping it with size 1. -/
def Data5.sumDim4 (x : Data5) : Data5 :=
  ⟨x.d0, x.d1, x.d2, x.d3, 1,
    fun i0 i1 i2 i3 _ => ∑ j ∈ Finset.range x.d4, x.val i0 i1 i2 i3 j⟩

/-- burn `swap_dims(4, 3)` on a rank-5 tensor. -/
def Data5.swapDims43 (x : Data5) : Data5 :=
  ⟨x.d0, x.d1, x.d2, x.d4, x.d3, fun i0 i1 i2 i3 i4 => x.val i0 i1 i2 i4 i3⟩

/-- burn `expand` to an explicit target shape: size-1 axes are broadcast. -/
def Data5.expandTo (x : Data5) (s0 s1 s2 s3 s4 : ℕ) : Data5 :=
  ⟨s0, s1, s2, s3, s4,
    fun i0 i1 i2 i3 i4 =>
      x.val (i0 % x.d0) (i1 % x.d1) (i2 % x.d2) (i3 % x.d3) (i4 % x.d4)⟩

/-- burn `repeat(3, times)`: concatenate `times` copies along axis 3. -/
def Data5.repeatDim3 (x : Data5) (times : ℕ) : Data5 :=
  ⟨x.d0, x.d1, x.d2, x.d3 * times, x.d4,
    fun i0 i1 i2 i3 i4 => x.val i0 i1 i2 (i3 % x.d3) i4⟩

/-- burn `iter_dim(0)` followed by `squeeze(0)`: the `n`-th rank-4 slice. -/
def Data5.sliceDim0 (x : Data5) (n : ℕ) : Data4 :=
  ⟨x.d1, x.d2, x.d3, x.d4, fun i1 i2 i3 i4 => x.val n i1 i2 i3 i4⟩

/-- burn `iter_dim(0)` followed by `squeeze(0)` on a rank-4 tensor. -/
def Data4.sliceDim0 (x : Data4) (n : ℕ) : Data3 :=
  ⟨x.d1, x.d2, x.d3, fun i1 i2 i3 => x.val n i1 i2 i3⟩

/-- Elementwise sum with broadcasting on rank-4 tensors (burn `+`). -/
def Data4.addB (x y : Data4) : Data4 :=
  ⟨bdim x.d0 y.d0, bdim x.d1 y.d1, bdim x.d2 y.d2, bdim x.d3 y.d3,
    fun i0 i1 i2 i3 =>
      x.val (i0 % x.d0) (i1 % x.d1) (i2 % x.d2) (i3 % x.d3) +
        y.val (i0 % y.d0) (i1 % y.d1) (i2 % y.d2) (i3 % y.d3)⟩

/-- Elementwise product with broadcasting on rank-4 tensors (burn `*`). -/
def Data4.mulB (x y : Data4) : Data4 :=
  ⟨bdim x.d0 y.d0, bdim x.d1 y.d1, bdim x.d2 y.d2, bdim x.d3 y.d3,
    fun i0 i1 i2 i3 =>
      x.val (i0 % x.d0) (i1 % x.d1) (i2 % x.d2) (i3 % x.d3) *
        y.val (i0 % y.d0) (i1 % y.d1) (i2 % y.d2) (i3 % y.d3)⟩

/-- Number of elements of a rank-4 tensor (length of its flat `value` vec). -/
def Data4.numel (t : Data4) : ℕ := t.d0 * t.d1 * t.d2 * t.d3

/-- Row-major flat read, as `data.value[k]` does on burn's flat buffer. -/
def Data4.flatVal (t : Data4) (k : ℕ) : ℚ :=
  t.val (k / (t.d1 * t.d2 * t.d3)) (k / (t.d2 * t.d3) % t.d1)
    (k / t.d3 % t.d2) (k % t.d3)

/-- Models Rust `Range<f32>`; `stop` stands for the Rust field `end`
(a Lean keyword). -/
structure RangeF where
  start : ℚ
  stop : ℚ

/-- `SimpleNerfDatasetConfig` from the source. -/
structure SimpleNerfDatasetConfig where
  points_per_ray : ℕ
  distance_range : RangeF

/-- `SimpleNerfDatasetInner` from the source: the four stored arrays of one
record. -/
structure SimpleNerfDatasetInner where
  directions : Data4
  distances : Data4
  image : Data3
  origins : Data4

/-- `SimpleNerfDataset` (the `device` field is irrelevant to the claims and
dropped). -/
structure SimpleNerfDataset where
  inners : List SimpleNerfDatasetInner
  has_noisy_distance : Bool

/-- `SimpleNerfDatasetItem` from the source. -/
structure SimpleNerfDatasetItem where
  directions : Data4
  distances : Data4
  image : Data3
  positions : Data4

/-- `SimpleNerfDatasetSplit` from the source. -/
structure SimpleNerfDatasetSplit where
  train : SimpleNerfDataset
  test : SimpleNerfDataset

/-- The error kind used by the build path (`io::ErrorKind::InvalidData`). -/
inductive IoErrorKind where
  | invalidData
deriving DecidableEq

/-- `plane_x` of `init_from_reader`:
`(arange(0..W).expand([H,W]) - W/2) / focal` at pixel `(r, c)`. -/
def planeX (W : ℕ) (focal : ℚ) (_r c : ℕ) : ℚ :=
  ((c : ℚ) - (W : ℚ) / 2) / focal

/-- `plane_y` of `init_from_reader`:
`(-arange(0..H).expand([H,W]) + H/2) / focal` at pixel `(r, c)`. -/
def planeY (H : ℕ) (focal : ℚ) (r _c : ℕ) : ℚ :=
  (-(r : ℚ) + (H : ℚ) / 2) / focal

/-- `plane_z` of `init_from_reader`: constant `-1`. -/
def planeZ : ℚ := -1

/-- `planes` of `init_from_reader`: `stack([plane_x, plane_y, plane_z], 2)`
reshaped to `[1, H, W, 1, 3]` (the stacked axis becomes the last one). -/
def planes (H W : ℕ) (focal : ℚ) : Data5 :=
  ⟨1, H, W, 1, 3,
    fun _ r c _ j =>
      if j = 0 then planeX W focal r c
      else if j = 1 then planeY H focal r c
      else planeZ⟩

/-- `poses.slice([0..N, 0..3, 0..3]).unsqueeze_dims(&[1, 1])`:
the rotation block, shaped `[N, 1, 1, 3, 3]`. -/
def posesRot (poses : Data3) : Data5 :=
  ⟨poses.d0, 1, 1, 3, 3, fun n _ _ i j => poses.val n i j⟩

/-- `poses.slice([0..N, 0..3, 3..4]).unsqueeze_dims(&[1, 1])`:
the translation column, shaped `[N, 1, 1, 3, 1]`. -/
def posesTrans (poses : Data3) : Data5 :=
  ⟨poses.d0, 1, 1, 3, 1, fun n _ _ i _ => poses.val n i 3⟩

/-- World-space directions before ray-sample expansion:
`(planes * posesRot).sum_dim(4).swap_dims(4, 3)`, shape `[N, H, W, 1, 3]`. -/
def directionsPre (H W : ℕ) (focal : ℚ) (poses : Data3) : Data5 :=
  (((planes H W focal).mulB (posesRot poses)).sumDim4).swapDims43

/-- `origins` of `init_from_reader`: translation column, swapped to
`[N, 1, 1, 1, 3]` and expanded to the shape of `directionsPre`. -/
def origins5 (H W : ℕ) (focal : ℚ) (poses : Data3) : Data5 :=
  (posesTrans poses).swapDims43.expandTo
    (directionsPre H W focal poses).d0 (directionsPre H W focal poses).d1
    (directionsPre H W focal poses).d2 (directionsPre H W focal poses).d3
    (directionsPre H W focal poses).d4

/-- Directions after `repeat(3, points_per_ray)`: shape `[N, H, W, S, 3]`. -/
def directions5 (cfg : SimpleNerfDatasetConfig) (H W : ℕ) (focal : ℚ)
    (poses : Data3) : Data5 :=
  (directionsPre H W focal poses).repeatDim3 cfg.points_per_ray

/-- `arange(0..S).float() * ((end - start) / S) + start`, unsqueezed to
`[1, 1, 1, S, 1]`. -/
def distancesRow (cfg : SimpleNerfDatasetConfig) : Data5 :=
  ⟨1, 1, 1, cfg.points_per_ray, 1,
    fun _ _ _ k _ =>
      (k : ℚ) *
          ((cfg.distance_range.stop - cfg.distance_range.start) /
            (cfg.points_per_ray : ℚ)) +
        cfg.distance_range.start⟩

/-- `distances` of `init_from_reader`, expanded to `[N, H, W, S, 1]`. -/
def distances5 (cfg : SimpleNerfDatasetConfig) (N H W : ℕ) : Data5 :=
  (distancesRow cfg).expandTo N H W cfg.points_per_ray 1

/-- One `SimpleNerfDatasetInner`: the `n`-th slice of the four big tensors
(`iter_dim(0)` + `squeeze` in the source). -/
def buildInner (cfg : SimpleNerfDatasetConfig) (focal : ℚ) (images : Data4)
    (poses : Data3) (n : ℕ) : SimpleNerfDatasetInner :=
  { directions :=
      (directions5 cfg images.d1 images.d2 focal poses).sliceDim0 n
    distances :=
      (distances5 cfg images.d0 images.d1 images.d2).sliceDim0 n
    image := images.sliceDim0 n
    origins := (origins5 images.d1 images.d2 focal poses).sliceDim0 n }

/-- The collected `inners` vector of `init_from_reader`. -/
def buildInners (cfg : SimpleNerfDatasetConfig) (focal : ℚ) (images : Data4)
    (poses : Data3) : List SimpleNerfDatasetInner :=
  (List.range images.d0).map (buildInner cfg focal images poses)

/-- `SimpleNerfDatasetConfig::init_from_reader`, starting after the external
zip/npy decoding: validates image/pose counts and the channel count, then
builds all records with `has_noisy_distance = false`. -/
def SimpleNerfDatasetConfig.init_from_reader (cfg : SimpleNerfDatasetConfig)
    (focal : ℚ) (images : Data4) (poses : Data3) :
    Except IoErrorKind SimpleNerfDataset :=
  if images.d0 ≠ poses.d0 then .error .invalidData
  else if images.d3 ≠ 3 then .error .invalidData
  else
    .ok { inners := buildInners cfg focal images poses
          has_noisy_distance := false }

/-- `Dataset::len` for `SimpleNerfDataset`. -/
def SimpleNerfDataset.len (ds : SimpleNerfDataset) : ℕ := ds.inners.length

/-- The `distance_value` computation of `get`:
`values = distances.value.get(0..2).unwrap_or(&[0.0, 0.0]); values[1] - values[0]`. -/
def distanceValue (d : Data4) : ℚ :=
  if 2 ≤ d.numel then d.flatVal 1 - d.flatVal 0 else 0

/-- The `distances` of `get` after the optional noise step: when
`has_noisy_distance` holds, `distances + noises` where `noises` has the same
shape as `distances` (`random_like`); otherwise the stored distances. The
uniform draw of `random_like(Uniform(0.0, distance_value))` is modelled by
the oracle `noise`; that each entry lies in `[0, distance_value)` is a
property of the distribution and appears as a hypothesis where a claim
needs it. -/
def jitteredDistances (has_noisy : Bool) (noise : ℕ → ℕ → ℕ → ℕ → ℚ)
    (d : Data4) : Data4 :=
  if has_noisy then d.addB ⟨d.d0, d.d1, d.d2, d.d3, noise⟩ else d

/-- The body of `get` on one record: the returned item carries the
(possibly jittered) distances, and `positions = origins + directions *
distances` with the same jittered distances tensor. -/
def assembleItem (has_noisy : Bool) (noise : ℕ → ℕ → ℕ → ℕ → ℚ)
    (inner : SimpleNerfDatasetInner) : SimpleNerfDatasetItem :=
  { directions := inner.directions
    distances := jitteredDistances has_noisy noise inner.distances
    image := inner.image
    positions :=
      inner.origins.addB
        (inner.directions.mulB
          (jitteredDistances has_noisy noise inner.distances)) }

/-- `Dataset::get` for `SimpleNerfDataset`: `self.inners.get(index)?`, then
item assembly. -/
def SimpleNerfDataset.get (ds : SimpleNerfDataset) (index : ℕ)
    (noise : ℕ → ℕ → ℕ → ℕ → ℚ) : Option SimpleNerfDatasetItem :=
  (ds.inners.get? index).map (assembleItem ds.has_noisy_distance noise)

/-- Rust `f32::round`: round half away from zero. -/
def roundF (x : ℚ) : ℤ := if 0 ≤ x then ⌊x + 1 / 2⌋ else ⌈x - 1 / 2⌉

/-- Rust `f32::clamp`. -/
def clampF (x lo hi : ℚ) : ℚ := if x < lo then lo else if hi < x then hi else x

/-- The split index of `split_for_training`:
`(ratio.clamp(0.0, 1.0) * (len as f32)).round() as usize`. -/
def splitPoint (q : ℚ) (n : ℕ) : ℕ := (roundF (clampF q 0 1 * (n : ℚ))).toNat

/-- `SimpleNerfDataset::split_for_training`: prefix/suffix split at
`splitPoint`, train jitter-enabled, test jitter-disabled. -/
def SimpleNerfDataset.split_for_training (ds : SimpleNerfDataset) (q : ℚ) :
    SimpleNerfDatasetSplit :=
  { train :=
      { inners := ds.inners.take (splitPoint q ds.inners.length)
        has_noisy_distance := true }
    test :=
      { inners := ds.inners.drop (splitPoint q ds.inners.length)
        has_noisy_distance := false } }

/-! ### Shared helper lemmas -/

theorem buildInners_length (cfg : SimpleNerfDatasetConfig) (focal : ℚ)
    (images : Data4) (poses : Data3) :
    (buildInners cfg focal images poses).length = images.d0 := by
  simp [buildInners]

theorem buildInners_get?_of_lt (cfg : SimpleNerfDatasetConfig) (focal : ℚ)
    (images : Data4) (poses : Data3) (n : ℕ) (hn : n < images.d0) :
    (buildInners cfg focal images poses).get? n =
      some (buildInner cfg focal images poses n) := by
  unfold buildInners
  rw [List.get?_map, List.get?_range hn, Option.map_some']

theorem buildInners_get?_inv (cfg : SimpleNerfDatasetConfig) (focal : ℚ)
    (images : Data4) (poses : Data3) (n : ℕ) (inner : SimpleNerfDatasetInner)
    (hn : (buildInners cfg focal images poses).get? n = some inner) :
    n < images.d0 ∧ inner = buildInner cfg focal images poses n := by
  by_cases hlt : n < images.d0
  · rw [buildInners_get?_of_lt cfg focal images poses n hlt] at hn
    exact ⟨hlt, (Option.some.inj hn).symm⟩
  · rw [List.get?_eq_none.mpr] at hn
    · exact absurd hn (by simp)
    · rw [buildInners_length]; omega

theorem init_from_reader_ok_iff (cfg : SimpleNerfDatasetConfig) (focal : ℚ)
    (images : Data4) (poses : Data3) (ds : SimpleNerfDataset) :
    cfg.init_from_reader focal images poses = .ok ds ↔
      images.d0 = poses.d0 ∧ images.d3 = 3 ∧
        ds = { inners := buildInners cfg focal images poses
               has_noisy_distance := false } := by
  unfold SimpleNerfDatasetConfig.init_from_reader
  split
  · simp_all
  · split
    · simp_all
    · simp_all [eq_comm]

theorem bdim_one_left (b : ℕ) : bdim 1 b = b := by simp [bdim]

theorem bdim_one_right (a : ℕ) : bdim a 1 = a := by unfold bdim; split <;> omega

theorem bdim_self (a : ℕ) : bdim a a = a := by unfold bdim; split <;> omega

theorem buildInner_directions_dims (cfg : SimpleNerfDatasetConfig) (focal : ℚ)
    (images : Data4) (poses : Data3) (n : ℕ) :
    (buildInner cfg focal images poses n).directions.d0 = images.d1 ∧
    (buildInner cfg focal images poses n).directions.d1 = images.d2 ∧
    (buildInner cfg focal images poses n).directions.d2 =
      cfg.points_per_ray ∧
    (buildInner cfg focal images poses n).directions.d3 = 3 := by
  refine ⟨?_, ?_, ?_, ?_⟩ <;>
    simp [buildInner, directions5, directionsPre, Data5.repeatDim3,
      Data5.swapDims43, Data5.sumDim4, Data5.mulB, Data5.sliceDim0, planes,
      posesRot, bdim_one_left, bdim_one_right, bdim_self]

theorem buildInner_distances_dims (cfg : SimpleNerfDatasetConfig) (focal : ℚ)
    (images : Data4) (poses : Data3) (n : ℕ) :
    (buildInner cfg focal images poses n).distances.d0 = images.d1 ∧
    (buildInner cfg focal images poses n).distances.d1 = images.d2 ∧
    (buildInner cfg focal images poses n).distances.d2 =
      cfg.points_per_ray ∧
    (buildInner cfg focal images poses n).distances.d3 = 1 := by
  refine ⟨rfl, rfl, rfl, rfl⟩

theorem buildInner_origins_dims (cfg : SimpleNerfDatasetConfig) (focal : ℚ)
    (images : Data4) (poses : Data3) (n : ℕ) :
    (buildInner cfg focal images poses n).origins.d0 = images.d1 ∧
    (buildInner cfg focal images poses n).origins.d1 = images.d2 ∧
    (buildInner cfg focal images poses n).origins.d2 = 1 ∧
    (buildInner cfg focal images poses n).origins.d3 = 3 := by
  refine ⟨?_, ?_, ?_, ?_⟩ <;>
    simp [buildInner, origins5, directionsPre, Data5.expandTo,
      Data5.swapDims43, Data5.sumDim4, Data5.mulB, Data5.sliceDim0, planes,
      posesRot, posesTrans, bdim_one_left, bdim_one_right, bdim_self]

theorem buildInner_distances_val (cfg : SimpleNerfDatasetConfig) (focal : ℚ)
    (images : Data4) (poses : Data3) (n h w k j : ℕ) :
    (buildInner cfg focal images poses n).distances.val h w k j =
      ((k % cfg.points_per_ray : ℕ) : ℚ) *
          ((cfg.distance_range.stop - cfg.distance_range.start) /
            (cfg.points_per_ray : ℚ)) +
        cfg.distance_range.start := rfl

theorem distanceValue_buildInner (cfg : SimpleNerfDatasetConfig) (focal : ℚ)
    (images : Data4) (poses : Data3) (n : ℕ) (hH : 0 < images.d1)
    (hW : 0 < images.d2) :
    distanceValue (buildInner cfg focal images poses n).distances =
      if 2 ≤ cfg.points_per_ray then
        (cfg.distance_range.stop - cfg.distance_range.start) /
          (cfg.points_per_ray : ℚ)
      else 0 := by
  unfold distanceValue Data4.numel Data4.flatVal
  by_cases h2 : 2 ≤ cfg.points_per_ray
  · have hle : cfg.points_per_ray ≤
        images.d1 * images.d2 * cfg.points_per_ray :=
      Nat.le_mul_of_pos_left _ (Nat.mul_pos hH hW)
    have hnum : 2 ≤ (buildInner cfg focal images poses n).distances.d0 *
        (buildInner cfg focal images poses n).distances.d1 *
        (buildInner cfg focal images poses n).distances.d2 *
        (buildInner cfg focal images poses n).distances.d3 := by
      show 2 ≤ images.d1 * images.d2 * cfg.points_per_ray * 1
      omega
    rw [if_pos hnum, if_pos h2, buildInner_distances_val,
      buildInner_distances_val]
    have hd3 : (buildInner cfg focal images poses n).distances.d3 = 1 := rfl
    have hd2 : (buildInner cfg focal images poses n).distances.d2 =
      cfg.points_per_ray := rfl
    rw [hd3, hd2, Nat.div_one, Nat.zero_div, Nat.zero_mod,
      Nat.mod_eq_of_lt (show 1 < cfg.points_per_ray by omega),
      Nat.mod_eq_of_lt (show 1 < cfg.points_per_ray by omega), Nat.zero_mod]
    push_cast
    ring
  · rw [if_neg h2]
    split
    · rw [buildInner_distances_val, buildInner_distances_val]
      have hS : cfg.points_per_ray = 0 ∨ cfg.points_per_ray = 1 := by omega
      rcases hS with hS | hS <;> rw [hS] <;> norm_num [Nat.mod_one]
    · rfl

theorem get_built (cfg : SimpleNerfDatasetConfig) (focal : ℚ) (images : Data4)
    (poses : Data3) (b : Bool) (index : ℕ) (noise : ℕ → ℕ → ℕ → ℕ → ℚ)
    (hidx : index < images.d0) :
    SimpleNerfDataset.get ⟨buildInners cfg focal images poses, b⟩ index
        noise =
      some (assembleItem b noise (buildInner cfg focal images poses index)) := by
  show ((buildInners cfg focal images poses).get? index).map _ = _
  rw [buildInners_get?_of_lt cfg focal images poses index hidx,
    Option.map_some']

theorem jitteredDistances_dims (b : Bool) (noise : ℕ → ℕ → ℕ → ℕ → ℚ)
    (d : Data4) :
    (jitteredDistances b noise d).d0 = d.d0 ∧
    (jitteredDistances b noise d).d1 = d.d1 ∧
    (jitteredDistances b noise d).d2 = d.d2 ∧
    (jitteredDistances b noise d).d3 = d.d3 := by
  cases b <;>
    simp [jitteredDistances, Data4.addB, bdim_self]

theorem jitteredDistances_val_true (noise : ℕ → ℕ → ℕ → ℕ → ℚ) (d : Data4)
    (h w s j : ℕ) (hh : h < d.d0) (hw : w < d.d1) (hs : s < d.d2)
    (hj : j < d.d3) :
    (jitteredDistances true noise d).val h w s j =
      d.val h w s j + noise h w s j := by
  simp [jitteredDistances, Data4.addB, bdim_self, Nat.mod_eq_of_lt hh,
    Nat.mod_eq_of_lt hw, Nat.mod_eq_of_lt hs, Nat.mod_eq_of_lt hj]

theorem jitteredDistances_false (noise : ℕ → ℕ → ℕ → ℕ → ℚ) (d : Data4) :
    jitteredDistances false noise d = d := rfl

theorem assembleItem_built_positions_dims (cfg : SimpleNerfDatasetConfig)
    (focal : ℚ) (images : Data4) (poses : Data3) (n : ℕ) (b : Bool)
    (noise : ℕ → ℕ → ℕ → ℕ → ℚ) :
    (assembleItem b noise (buildInner cfg focal images poses n)).positions.d0
        = images.d1 ∧
    (assembleItem b noise (buildInner cfg focal images poses n)).positions.d1
        = images.d2 ∧
    (assembleItem b noise (buildInner cfg focal images poses n)).positions.d2
        = cfg.points_per_ray ∧
    (assembleItem b noise (buildInner cfg focal images poses n)).positions.d3
        = 3 := by
  have hdir := buildInner_directions_dims cfg focal images poses n
  have hdist := buildInner_distances_dims cfg focal images poses n
  have horig := buildInner_origins_dims cfg focal images poses n
  have hjd := jitteredDistances_dims b noise
    (buildInner cfg focal images poses n).distances
  simp only [assembleItem, Data4.addB, Data4.mulB, hdir.1, hdir.2.1,
    hdir.2.2.1, hdir.2.2.2, horig.1, horig.2.1, horig.2.2.1, horig.2.2.2,
    hjd.1, hjd.2.1, hjd.2.2.1, hjd.2.2.2, hdist.1, hdist.2.1, hdist.2.2.1,
    hdist.2.2.2, bdim_self, bdim_one_left, bdim_one_right]
  exact ⟨trivial, trivial, trivial, trivial⟩

theorem get_noise_irrelevant (ds : SimpleNerfDataset) (index : ℕ)
    (n1 n2 : ℕ → ℕ → ℕ → ℕ → ℚ) (h : ds.has_noisy_distance = false) :
    ds.get index n1 = ds.get index n2 := by
  unfold SimpleNerfDataset.get
  rw [h]
  rcases ds.inners.get? index with _ | inner
  · rfl
  · rfl

theorem clampF_mem (q lo hi : ℚ) (h : lo ≤ hi) :
    lo ≤ clampF q lo hi ∧ clampF q lo hi ≤ hi := by
  unfold clampF
  split_ifs <;> constructor <;> linarith

theorem splitPoint_le (q : ℚ) (n : ℕ) : splitPoint q n ≤ n := by
  have hc := clampF_mem q 0 1 (by norm_num)
  unfold splitPoint roundF
  have hx0 : 0 ≤ clampF q 0 1 * (n : ℚ) :=
    mul_nonneg hc.1 (by positivity)
  have hxn : clampF q 0 1 * (n : ℚ) ≤ (n : ℚ) := by
    calc clampF q 0 1 * (n : ℚ) ≤ 1 * (n : ℚ) :=
          mul_le_mul_of_nonneg_right hc.2 (by positivity)
      _ = (n : ℚ) := one_mul _
  rw [if_pos hx0]
  refine Int.toNat_le.mpr ?_
  calc ⌊clampF q 0 1 * (n : ℚ) + 1 / 2⌋ ≤ ⌊(n : ℚ) + 1 / 2⌋ :=
        Int.floor_le_floor (by linarith)
    _ = (n : ℤ) := by
        rw [add_comm, show ((n : ℚ)) = ((n : ℤ) : ℚ) by push_cast; ring,
          Int.floor_add_int]
        norm_num

/-! ### Witness inputs: a tiny concrete dataset (1 image of 1×1 pixels,
3 channels, identity rotation, unit translation, 2 samples per ray over
the range 2..6). -/

def wCfg : SimpleNerfDatasetConfig := ⟨2, ⟨2, 6⟩⟩

def wImages : Data4 := ⟨1, 1, 1, 3, fun _ _ _ _ => 1 / 2⟩

def wPoses : Data3 :=
  ⟨1, 3, 4, fun _ i j => if j = 3 then 1 else if i = j then 1 else 0⟩

def wInner : SimpleNerfDatasetInner := buildInner wCfg 1 wImages wPoses 0

/-! ### Claims -/

/-- C1: for every dataset built with `points_per_ray = S` and
`distance_range = (start, stop)`, the build produces one record per image,
and each record's stored distances array has shape `[H, W, S, 1]` and holds,
along the sample axis, the values `start + k * (stop - start) / S` for
`k = 0 .. S-1`, independent of the image index and of the pixel (stated for
all `h w`, with no bound: the value genuinely does not depend on them). -/
theorem c1_distances_linspace (cfg : SimpleNerfDatasetConfig) (focal : ℚ)
    (images : Data4) (poses : Data3) :
    (buildInners cfg focal images poses).length = images.d0 ∧
    ∀ n inner, (buildInners cfg focal images poses).get? n = some inner →
      inner.distances.d0 = images.d1 ∧ inner.distances.d1 = images.d2 ∧
      inner.distances.d2 = cfg.points_per_ray ∧ inner.distances.d3 = 1 ∧
      ∀ h w k, k < cfg.points_per_ray →
        inner.distances.val h w k 0 =
          cfg.distance_range.start +
            (k : ℚ) * (cfg.distance_range.stop - cfg.distance_range.start) /
              (cfg.points_per_ray : ℚ) := by
  refine ⟨buildInners_length cfg focal images poses, ?_⟩
  intro n inner hn
  obtain ⟨hlt, rfl⟩ := buildInners_get?_inv cfg focal images poses n inner hn
  refine ⟨rfl, rfl, rfl, rfl, ?_⟩
  intro h w k hk
  show (distancesRow cfg).val (n % 1) (h % 1) (w % 1) (k % cfg.points_per_ray)
      (0 % 1) = _
  rw [Nat.mod_eq_of_lt hk]
  show (k : ℚ) * ((cfg.distance_range.stop - cfg.distance_range.start) /
      (cfg.points_per_ray : ℚ)) + cfg.distance_range.start = _
  ring

/-- C1 witness: in the 2-sample build over the range 2..6, the stored
distance at sample index 1 is `2 + 1 * (6 - 2) / 2 = 4`, whatever the pixel. -/
theorem c1_distances_linspace_witness : wInner.distances.val 5 7 1 0 = 4 := by
  have h := (c1_distances_linspace wCfg 1 wImages wPoses).2 0 wInner rfl
  rw [h.2.2.2.2 5 7 1 (by norm_num [wCfg])]
  norm_num [wCfg]

/-- C2: for pixel (row `r`, col `c`) the camera-space ray direction built
before rotation is `((c - W/2)/focal, -(r - H/2)/focal, -1)`, and the
world-space direction of the build is exactly the pose rotation applied to
that vector. -/
theorem c2_camera_plane (H W : ℕ) (focal : ℚ) (r c : ℕ) (hr : r < H)
    (hc : c < W) :
    ((planes H W focal).val 0 r c 0 0 = ((c : ℚ) - (W : ℚ) / 2) / focal ∧
      (planes H W focal).val 0 r c 0 1 = -((r : ℚ) - (H : ℚ) / 2) / focal ∧
      (planes H W focal).val 0 r c 0 2 = -1) ∧
    ∀ (poses : Data3) (n i : ℕ), n < poses.d0 → i < 3 →
      (directionsPre H W focal poses).val n r c 0 i =
        ((c : ℚ) - (W : ℚ) / 2) / focal * poses.val n i 0 +
          -((r : ℚ) - (H : ℚ) / 2) / focal * poses.val n i 1 +
          -1 * poses.val n i 2 := by
  constructor
  · refine ⟨?_, ?_, ?_⟩ <;> simp [planes, planeX, planeY, planeZ] <;> ring
  · intro poses n i hn hi
    show ∑ j ∈ Finset.range (bdim 3 3), _ = _
    have hb : bdim 3 3 = 3 := rfl
    rw [hb, Finset.sum_range_succ, Finset.sum_range_succ, Finset.sum_range_one]
    simp only [Data5.mulB, planes, posesRot, bdim]
    norm_num [Nat.mod_one, Nat.mod_eq_of_lt hr, Nat.mod_eq_of_lt hc,
      Nat.mod_eq_of_lt hn, Nat.mod_eq_of_lt hi, planeX, planeY, planeZ]
    exact Or.inl (by ring)

/-- The dataset built from the witness inputs. -/
def wDs : SimpleNerfDataset :=
  { inners := buildInners wCfg 1 wImages wPoses, has_noisy_distance := false }

/-- C3 counterexample: with `points_per_ray = 2` the stored origins array of
the first record has sample axis of size 1, not 2 — origins are expanded to
the pre-repeat direction shape `[N, H, W, 1, 3]`, contradicting the claimed
`[H, W, S, 3]`. -/
theorem c3_origins_counterexample :
    wCfg.points_per_ray = 2 ∧ wInner.origins.d2 = 1 ∧
      ¬ wInner.origins.d2 = wCfg.points_per_ray := by
  refine ⟨rfl, rfl, by decide⟩

/-- C3 (amended): every record of a successful build with
`points_per_ray = S` on `H × W` images has directions of shape `[H, W, S, 3]`
(by repetition), distances of shape `[H, W, S, 1]`, image of shape
`[H, W, 3]`, and origins of shape `[H, W, 1, 3]` — the origins' sample axis
has size 1 (they are broadcast across samples only at access time), not S. -/
theorem c3_record_shapes (cfg : SimpleNerfDatasetConfig) (focal : ℚ)
    (images : Data4) (poses : Data3) (ds : SimpleNerfDataset) (n : ℕ)
    (inner : SimpleNerfDatasetInner)
    (hok : cfg.init_from_reader focal images poses = .ok ds)
    (hn : ds.inners.get? n = some inner) :
    (inner.directions.d0 = images.d1 ∧ inner.directions.d1 = images.d2 ∧
      inner.directions.d2 = cfg.points_per_ray ∧
      inner.directions.d3 = 3) ∧
    (inner.distances.d0 = images.d1 ∧ inner.distances.d1 = images.d2 ∧
      inner.distances.d2 = cfg.points_per_ray ∧ inner.distances.d3 = 1) ∧
    (inner.image.d0 = images.d1 ∧ inner.image.d1 = images.d2 ∧
      inner.image.d2 = 3) ∧
    (inner.origins.d0 = images.d1 ∧ inner.origins.d1 = images.d2 ∧
      inner.origins.d2 = 1 ∧ inner.origins.d3 = 3) := by
  obtain ⟨hcount, hch, rfl⟩ :=
    (init_from_reader_ok_iff cfg focal images poses ds).mp hok
  obtain ⟨hlt, rfl⟩ := buildInners_get?_inv cfg focal images poses n inner hn
  exact ⟨buildInner_directions_dims cfg focal images poses n,
    buildInner_distances_dims cfg focal images poses n,
    ⟨rfl, rfl, hch⟩,
    buildInner_origins_dims cfg focal images poses n⟩

/-- C3 witness: the shapes of the first record of the witness build. -/
theorem c3_record_shapes_witness :
    wInner.directions.d2 = wCfg.points_per_ray ∧ wInner.distances.d3 = 1 ∧
      wInner.image.d2 = 3 ∧ wInner.origins.d2 = 1 := by
  have h := c3_record_shapes wCfg 1 wImages wPoses wDs 0 wInner rfl rfl
  exact ⟨h.1.2.2.1, h.2.1.2.2.2, h.2.2.1.2.2, h.2.2.2.2.2.1⟩

/-- C4: on a built dataset (any jitter flag `b`, as set by splitting), for
every in-range index the returned item satisfies
`positions = origins + directions * distances` elementwise with
broadcasting to `[H, W, S, 3]`, where the distances factor is exactly the
returned distances field; the per-access step is the first difference of
the stored distances along the sample axis (0 when there are fewer than 2
samples); with jitter enabled each returned distance entry is the stored
base value plus the corresponding noise draw, staying in
`[base, base + step)` when the draws lie in `[0, step)`; with jitter
disabled the returned distances are the stored ones. -/
theorem c4_positions_and_jitter (cfg : SimpleNerfDatasetConfig) (focal : ℚ)
    (images : Data4) (poses : Data3) (b : Bool) (index : ℕ)
    (noise : ℕ → ℕ → ℕ → ℕ → ℚ) (item : SimpleNerfDatasetItem)
    (hH : 0 < images.d1) (hW : 0 < images.d2) (hidx : index < images.d0)
    (hget : SimpleNerfDataset.get ⟨buildInners cfg focal images poses, b⟩
        index noise = some item) :
    distanceValue (buildInner cfg focal images poses index).distances =
      (if 2 ≤ cfg.points_per_ray then
        (buildInner cfg focal images poses index).distances.val 0 0 1 0 -
          (buildInner cfg focal images poses index).distances.val 0 0 0 0
      else 0) ∧
    (item.positions.d0 = images.d1 ∧ item.positions.d1 = images.d2 ∧
      item.positions.d2 = cfg.points_per_ray ∧ item.positions.d3 = 3) ∧
    (∀ h w s j, h < images.d1 → w < images.d2 → s < cfg.points_per_ray →
      j < 3 →
      item.positions.val h w s j =
        (buildInner cfg focal images poses index).origins.val h w 0 j +
          (buildInner cfg focal images poses index).directions.val h w s j *
            item.distances.val h w s 0) ∧
    (b = true →
      (∀ h w s j, 0 ≤ noise h w s j ∧
        noise h w s j <
          distanceValue
            (buildInner cfg focal images poses index).distances) →
      ∀ h w s, h < images.d1 → w < images.d2 →
      s < cfg.points_per_ray →
      item.distances.val h w s 0 =
        (buildInner cfg focal images poses index).distances.val h w s 0 +
          noise h w s 0 ∧
      (buildInner cfg focal images poses index).distances.val h w s 0 ≤
        item.distances.val h w s 0 ∧
      item.distances.val h w s 0 <
        (buildInner cfg focal images poses index).distances.val h w s 0 +
          distanceValue
            (buildInner cfg focal images poses index).distances) ∧
    (b = false → item.distances =
      (buildInner cfg focal images poses index).distances) := by
  rw [get_built cfg focal images poses b index noise hidx] at hget
  have hitem : item =
      assembleItem b noise (buildInner cfg focal images poses index) :=
    (Option.some.inj hget).symm
  subst hitem
  have hdir := buildInner_directions_dims cfg focal images poses index
  have hdist := buildInner_distances_dims cfg focal images poses index
  have horig := buildInner_origins_dims cfg focal images poses index
  have hjd := jitteredDistances_dims b noise
    (buildInner cfg focal images poses index).distances
  refine ⟨?_, ?_, ?_, ?_, ?_⟩
  · rw [distanceValue_buildInner cfg focal images poses index hH hW]
    by_cases h2 : 2 ≤ cfg.points_per_ray
    · rw [if_pos h2, if_pos h2, buildInner_distances_val,
        buildInner_distances_val, Nat.zero_mod,
        Nat.mod_eq_of_lt (show 1 < cfg.points_per_ray by omega)]
      push_cast
      ring
    · rw [if_neg h2, if_neg h2]
  · exact assembleItem_built_positions_dims cfg focal images poses index b
      noise
  · intro h w s j hh hw hs hj
    simp only [assembleItem, Data4.addB, Data4.mulB, hdir.1, hdir.2.1,
      hdir.2.2.1, hdir.2.2.2, horig.1, horig.2.1, horig.2.2.1, horig.2.2.2,
      hjd.1, hjd.2.1, hjd.2.2.1, hjd.2.2.2, hdist.1, hdist.2.1, hdist.2.2.1,
      hdist.2.2.2, bdim_self, bdim_one_left, bdim_one_right,
      Nat.mod_eq_of_lt hh, Nat.mod_eq_of_lt hw, Nat.mod_eq_of_lt hs,
      Nat.mod_eq_of_lt hj, Nat.mod_one]
  · intro hb hnoise h w s hh hw hs
    subst hb
    have hv := jitteredDistances_val_true noise
      (buildInner cfg focal images poses index).distances h w s 0
      (by rw [hdist.1]; exact hh) (by rw [hdist.2.1]; exact hw)
      (by rw [hdist.2.2.1]; exact hs) (by rw [hdist.2.2.2]; omega)
    simp only [assembleItem]
    rw [hv]
    refine ⟨rfl, ?_, ?_⟩
    · have := (hnoise h w s 0).1
      linarith
    · have := (hnoise h w s 0).2
      linarith
  · intro hb
    subst hb
    rfl

/-- The built dataset with the train flag, as produced by
`split_for_training` on a full-ratio split. -/
def wDsTrain : SimpleNerfDataset :=
  { inners := buildInners wCfg 1 wImages wPoses, has_noisy_distance := true }

/-- A concrete noise oracle: constant 1 (inside `[0, 2)`, the witness step). -/
def wNoise : ℕ → ℕ → ℕ → ℕ → ℚ := fun _ _ _ _ => 1

/-- C4 witness: on the witness build with jitter on and noise 1, the step is
2, the returned distance at sample 1 is `4 + 1`, and the positions entry
satisfies the `origins + directions * distances` equation. -/
theorem c4_positions_and_jitter_witness :
    distanceValue wInner.distances = 2 ∧
    (assembleItem true wNoise wInner).positions.val 0 0 1 0 =
      wInner.origins.val 0 0 0 0 +
        wInner.directions.val 0 0 1 0 *
          (assembleItem true wNoise wInner).distances.val 0 0 1 0 ∧
    (assembleItem true wNoise wInner).distances.val 0 0 1 0 =
      wInner.distances.val 0 0 1 0 + 1 := by
  have hdv : distanceValue wInner.distances = 2 := by
    rw [show wInner.distances = (buildInner wCfg 1 wImages wPoses 0).distances
        from rfl,
      distanceValue_buildInner wCfg 1 wImages wPoses 0 (by norm_num [wImages])
        (by norm_num [wImages])]
    norm_num [wCfg]
  have h := c4_positions_and_jitter wCfg 1 wImages wPoses true 0 wNoise
    (assembleItem true wNoise wInner) (by norm_num [wImages])
    (by norm_num [wImages]) (by norm_num [wImages]) rfl
  refine ⟨hdv, ?_, ?_⟩
  · exact h.2.2.1 0 0 1 0 (by norm_num [wImages]) (by norm_num [wImages])
      (by norm_num [wCfg]) (by norm_num)
  · exact (h.2.2.2.1 rfl
      (by intro h w s j; rw [show (buildInner wCfg 1 wImages wPoses 0) =
          wInner from rfl, hdv]; norm_num [wNoise])
      0 0 1 (by norm_num [wImages]) (by norm_num [wImages])
      (by norm_num [wCfg])).1

/-- C2 witness: at `H = W = 2`, `focal = 1`, pixel `(0, 1)`, the plane
components are `(0, 1, -1)` and the rotated direction under the identity
pose agrees componentwise. -/
theorem c2_camera_plane_witness :
    (planes 2 2 1).val 0 0 1 0 0 = ((1 : ℚ) - (2 : ℚ) / 2) / 1 ∧
    (directionsPre 2 2 1 wPoses).val 0 0 1 0 1 =
      ((1 : ℚ) - (2 : ℚ) / 2) / 1 * wPoses.val 0 1 0 +
        -((0 : ℚ) - (2 : ℚ) / 2) / 1 * wPoses.val 0 1 1 +
        -1 * wPoses.val 0 1 2 := by
  have h := c2_camera_plane 2 2 1 0 1 (by norm_num) (by norm_num)
  exact ⟨h.1.1, h.2 wPoses 0 1 (by norm_num [wPoses]) (by norm_num)⟩

/-- C5: `split_for_training` clamps the ratio to `[0, 1]`, rounds
`clamped * N` half away from zero (Rust `f32::round`), and returns the
record prefix of that length with jitter enabled and the suffix with
jitter disabled, regardless of the parent's flag; the two lengths always
sum to `N`. -/
theorem c5_split_for_training (ds : SimpleNerfDataset) (q : ℚ) :
    (ds.split_for_training q).train.inners.length +
        (ds.split_for_training q).test.inners.length = ds.inners.length ∧
    (ds.split_for_training q).train.inners.length =
      splitPoint q ds.inners.length ∧
    splitPoint q ds.inners.length =
      (roundF (clampF q 0 1 * (ds.inners.length : ℚ))).toNat ∧
    (ds.split_for_training q).train.has_noisy_distance = true ∧
    (ds.split_for_training q).test.has_noisy_distance = false ∧
    (ds.split_for_training q).train.inners =
      ds.inners.take (splitPoint q ds.inners.length) ∧
    (ds.split_for_training q).test.inners =
      ds.inners.drop (splitPoint q ds.inners.length) := by
  have hle := splitPoint_le q ds.inners.length
  refine ⟨?_, ?_, rfl, rfl, rfl, rfl, rfl⟩
  · simp only [SimpleNerfDataset.split_for_training, List.length_take,
      List.length_drop]
    omega
  · simp only [SimpleNerfDataset.split_for_training, List.length_take]
    omega

/-- C6: `get` ignores the noise source entirely when jitter is disabled
(bit-identical results across repeated calls), and even with jitter
enabled the `directions` and `image` fields of the returned item do not
depend on the noise. -/
theorem c6_get_determinism (ds : SimpleNerfDataset) (index : ℕ)
    (n1 n2 : ℕ → ℕ → ℕ → ℕ → ℚ) :
    (ds.has_noisy_distance = false → ds.get index n1 = ds.get index n2) ∧
    (ds.get index n1).map SimpleNerfDatasetItem.directions =
      (ds.get index n2).map SimpleNerfDatasetItem.directions ∧
    (ds.get index n1).map SimpleNerfDatasetItem.image =
      (ds.get index n2).map SimpleNerfDatasetItem.image := by
  refine ⟨get_noise_irrelevant ds index n1 n2, ?_, ?_⟩ <;>
    · unfold SimpleNerfDataset.get
      rcases ds.inners.get? index with _ | inner
      · rfl
      · rfl

/-- C6 witness: on the witness build without jitter, `get 0` under two
different noise sources is identical; with jitter on, the directions
projections agree. -/
theorem c6_get_determinism_witness :
    wDs.get 0 wNoise = wDs.get 0 (fun _ _ _ _ => 0) ∧
    (wDsTrain.get 0 wNoise).map SimpleNerfDatasetItem.directions =
      (wDsTrain.get 0 (fun _ _ _ _ => 0)).map
        SimpleNerfDatasetItem.directions := by
  exact ⟨(c6_get_determinism wDs 0 wNoise (fun _ _ _ _ => 0)).1 rfl,
    (c6_get_determinism wDsTrain 0 wNoise (fun _ _ _ _ => 0)).2.1⟩

/-- C7: `get index` is absent exactly when `index` is out of range
(`index ≥ len`), and returns an item for every in-range index; the model
is total, so no panic path exists. -/
theorem c7_get_absent_iff (ds : SimpleNerfDataset) (index : ℕ)
    (noise : ℕ → ℕ → ℕ → ℕ → ℚ) :
    (ds.get index noise = none ↔ ds.len ≤ index) ∧
    (index < ds.len → (ds.get index noise).isSome = true) := by
  unfold SimpleNerfDataset.get SimpleNerfDataset.len
  constructor
  · rw [Option.map_eq_none']
    exact List.get?_eq_none
  · intro hidx
    rw [List.get?_eq_get hidx]
    rfl

/-- C7 witness: on the 1-record witness build, `get 5` is absent and
`get 0` is present. -/
theorem c7_get_absent_iff_witness :
    wDs.get 5 wNoise = none ∧ (wDs.get 0 wNoise).isSome = true := by
  have h5 := (c7_get_absent_iff wDs 5 wNoise).1
  have h0 := (c7_get_absent_iff wDs 0 wNoise).2
  have hlen : wDs.len = 1 := rfl
  exact ⟨h5.mpr (by omega), h0 (by omega)⟩

/-- C8: the build entry point fails with the invalid-data error kind when
the image count differs from the pose count or the channel count is not 3
(returning no dataset), and with matching counts and 3 channels these
checks pass and the full dataset is returned. -/
theorem c8_count_and_channel_validation (cfg : SimpleNerfDatasetConfig)
    (focal : ℚ) (images : Data4) (poses : Data3) :
    (images.d0 ≠ poses.d0 ∨ images.d3 ≠ 3 →
      cfg.init_from_reader focal images poses = .error .invalidData) ∧
    (images.d0 = poses.d0 → images.d3 = 3 →
      cfg.init_from_reader focal images poses =
        .ok { inners := buildInners cfg focal images poses
              has_noisy_distance := false }) := by
  unfold SimpleNerfDatasetConfig.init_from_reader
  constructor
  · intro hbad
    rcases hbad with hbad | hbad
    · rw [if_pos hbad]
    · by_cases h0 : images.d0 ≠ poses.d0
      · rw [if_pos h0]
      · rw [if_neg h0, if_pos hbad]
  · intro h1 h2
    rw [if_neg (by simp [h1]), if_neg (by simp [h2])]

/-- An ill-formed input: 2 images but 1 pose. -/
def wImagesBad : Data4 := ⟨2, 1, 1, 3, fun _ _ _ _ => 0⟩

/-- C8 witness: a 2-image/1-pose input fails with invalid data, and the
well-formed witness input builds. -/
theorem c8_count_and_channel_validation_witness :
    wCfg.init_from_reader 1 wImagesBad wPoses = .error .invalidData ∧
    wCfg.init_from_reader 1 wImages wPoses = .ok wDs := by
  constructor
  · exact (c8_count_and_channel_validation wCfg 1 wImagesBad wPoses).1
      (Or.inl (by decide))
  · exact (c8_count_and_channel_validation wCfg 1 wImages wPoses).2 rfl rfl

/-- C9: with `points_per_ray = 0` on otherwise valid input, the build
succeeds (the model is total: the division by `S` feeds no element since
the sample range is empty), every record's sample axes have length 0,
`len` is still the image count, and `get` on an in-range index returns an
item whose positions sample axis has length 0. -/
theorem c9_zero_points_per_ray (cfg : SimpleNerfDatasetConfig) (focal : ℚ)
    (images : Data4) (poses : Data3) (index : ℕ)
    (noise : ℕ → ℕ → ℕ → ℕ → ℚ) (hS : cfg.points_per_ray = 0)
    (hc : images.d0 = poses.d0) (hch : images.d3 = 3)
    (hidx : index < images.d0) :
    cfg.init_from_reader focal images poses =
      .ok { inners := buildInners cfg focal images poses
            has_noisy_distance := false } ∧
    ({ inners := buildInners cfg focal images poses
       has_noisy_distance := false } : SimpleNerfDataset).len =
      images.d0 ∧
    (buildInner cfg focal images poses index).distances.d2 = 0 ∧
    (buildInner cfg focal images poses index).directions.d2 = 0 ∧
    SimpleNerfDataset.get
        { inners := buildInners cfg focal images poses
          has_noisy_distance := false } index noise =
      some (assembleItem false noise
        (buildInner cfg focal images poses index)) ∧
    (assembleItem false noise
        (buildInner cfg focal images poses index)).positions.d2 = 0 := by
  refine ⟨?_, ?_, ?_, ?_, ?_, ?_⟩
  · unfold SimpleNerfDatasetConfig.init_from_reader
    rw [if_neg (by simp [hc]), if_neg (by simp [hch])]
  · exact buildInners_length cfg focal images poses
  · rw [(buildInner_distances_dims cfg focal images poses index).2.2.1, hS]
  · rw [(buildInner_directions_dims cfg focal images poses index).2.2.1, hS]
  · exact get_built cfg focal images poses false index noise hidx
  · rw [(assembleItem_built_positions_dims cfg focal images poses index
      false noise).2.2.1, hS]

/-- A zero-sample configuration over the range 2..6. -/
def wCfg0 : SimpleNerfDatasetConfig := ⟨0, ⟨2, 6⟩⟩

/-- C9 witness: the zero-sample build on the witness input succeeds and
degrades to empty sample axes. -/
theorem c9_zero_points_per_ray_witness :
    wCfg0.init_from_reader 1 wImages wPoses =
      .ok { inners := buildInners wCfg0 1 wImages wPoses
            has_noisy_distance := false } ∧
    (buildInner wCfg0 1 wImages wPoses 0).distances.d2 = 0 ∧
    (assembleItem false wNoise
        (buildInner wCfg0 1 wImages wPoses 0)).positions.d2 = 0 := by
  have h := c9_zero_points_per_ray wCfg0 1 wImages wPoses 0 wNoise rfl rfl
    rfl (by norm_num [wImages])
  exact ⟨h.1, h.2.2.1, h.2.2.2.2.2⟩

/-- C10: a successful build always returns a dataset with
`has_noisy_distance = false`, on which `get` is independent of the noise
source; the only operation that enables jitter is `split_for_training`,
which marks exactly the train half. -/
theorem c10_fresh_build_not_jittered (cfg : SimpleNerfDatasetConfig)
    (focal : ℚ) (images : Data4) (poses : Data3) (ds : SimpleNerfDataset)
    (hok : cfg.init_from_reader focal images poses = .ok ds) :
    ds.has_noisy_distance = false ∧
    (∀ index n1 n2, ds.get index n1 = ds.get index n2) ∧
    ∀ q, (ds.split_for_training q).train.has_noisy_distance = true ∧
      (ds.split_for_training q).test.has_noisy_distance = false := by
  obtain ⟨h1, h2, rfl⟩ :=
    (init_from_reader_ok_iff cfg focal images poses ds).mp hok
  exact ⟨rfl, fun index n1 n2 => get_noise_irrelevant _ index n1 n2 rfl,
    fun q => ⟨rfl, rfl⟩⟩

/-- C10 witness: the witness build has jitter disabled, its `get` ignores
noise at index 0, and splitting at ratio 4/5 tags train/test as required. -/
theorem c10_fresh_build_not_jittered_witness :
    wDs.has_noisy_distance = false ∧
    wDs.get 0 wNoise = wDs.get 0 (fun _ _ _ _ => 0) ∧
    (wDs.split_for_training (4 / 5)).train.has_noisy_distance = true := by
  have h := c10_fresh_build_not_jittered wCfg 1 wImages wPoses wDs rfl
  exact ⟨h.1, h.2.1 0 wNoise (fun _ _ _ _ => 0), (h.2.2 (4 / 5)).1⟩

end SimpleNerf
